import Mathlib

/-!
Ember ASM debug printers (`asm/x86-64_linux/print`).

A shallow embedding of `printf.c` (the float printer `PRINTF`) as a small state
machine: one step per C statement, over a state holding the local variables,
the 64-byte stack buffer and a chronological log of the stores and of the
`write` system call.  The integer printers `PRINTI` / `PRINTU` are included by
`main.c` but their files are not part of the sources at hand; they are modelled
from the specification.
-/

namespace Ember

/-! ## Data model -/

/-- The macro `BUFFER_CAPACITY` of `printf.c`. -/
def BUFFER_CAPACITY : Int := 64

/-- The character constant `'\n'`. -/
def chNewline : Nat := 10

/-- The character constant `'.'`. -/
def chDot : Nat := 46

/-- The character constant `'-'`. -/
def chMinus : Nat := 45

/-- The character constant `'0'`. -/
def chZero : Nat := 48

/-- An IEEE-754 binary64 value, given by its sign bit, its 11-bit biased exponent
and its 52-bit fraction field. -/
structure Double where
  sign : Bool
  exponent : Fin 2048
  mantissa : Fin 4503599627370496
deriving DecidableEq

namespace Double

/-- Not-a-number: exponent all ones, fraction non-zero. -/
def isNaN (d : Double) : Bool := d.exponent.val == 2047 && d.mantissa.val != 0

/-- Finite values: the exponent field is not all ones. -/
def isFinite (d : Double) : Bool := d.exponent.val != 2047

/-- Positive or negative zero. -/
def isZero (d : Double) : Bool := d.exponent.val == 0 && d.mantissa.val == 0

/-- The C comparison `value < 0` on doubles: true exactly for a set sign bit on
a value that is neither a NaN nor a zero. -/
def ltZero (d : Double) : Bool := d.sign && !d.isNaN && !d.isZero

end Double

/-- One observable action of the function body, in program order. -/
inductive Event where
  | store (index : Int) (byte : Nat)
  | write (fd : Int) (start : Int) (data : List (Option Nat)) (count : Int) (ret : Int)
deriving DecidableEq

/-- The external `write(fd, buf, count)` of `unistd.h`: it sees the bytes at
`buf` and answers with the number of bytes transferred, or a negative value. -/
abbrev Sink := Int → List (Option Nat) → Int → Int

/-- Local state of one `PRINTF` call.  A buffer cell is `none` while it holds an
indeterminate value; `isNegative` is `none` before its declaration. -/
structure State where
  bufferSize : Int
  buffer : List (Option Nat)
  isNegative : Option Int
  events : List Event

/-- The assignment `buffer[index] = byte`; an index outside the array is
undefined behaviour and makes the run fail. -/
def store (s : State) (index : Int) (byte : Nat) : Option State :=
  if 0 ≤ index ∧ index < BUFFER_CAPACITY then
    some { s with
      buffer := s.buffer.set index.toNat (some byte)
      events := s.events ++ [Event.store index byte] }
  else none

/-- The post-increment `bufferSize++` once the enclosing statement is done. -/
def bump (s : State) : State := { s with bufferSize := s.bufferSize + 1 }

/-! ## The statements of `PRINTF` -/

/-- Lines 17-18: `int bufferSize = 1; char buffer[BUFFER_CAPACITY];`. -/
def declare : State :=
  { bufferSize := 1
    buffer := List.replicate BUFFER_CAPACITY.toNat none
    isNegative := none
    events := [] }

/-- Line 19: `buffer[BUFFER_CAPACITY - 1] = '\n';`. -/
def storeNewline (s : State) : Option State :=
  store s (BUFFER_CAPACITY - 1) chNewline

/-- Line 20: `int isNegative = value < 0;`. -/
def setIsNegative (value : Double) (s : State) : State :=
  { s with isNegative := some (if value.ltZero then 1 else 0) }

/-- Line 27: `buffer[BUFFER_CAPACITY - 1 - (bufferSize++)] = '.';`. -/
def storeSeparator (s : State) : Option State :=
  (store s (BUFFER_CAPACITY - 1 - s.bufferSize) chDot).map bump

/-- Lines 30-31: `if (isNegative) buffer[BUFFER_CAPACITY - 1 - (bufferSize++)] = '-';`. -/
def storeSign (s : State) : Option State :=
  match s.isNegative with
  | none => none
  | some b =>
    if b ≠ 0 then (store s (BUFFER_CAPACITY - 1 - s.bufferSize) chMinus).map bump
    else some s

/-- Line 32: `write(1, &buffer[BUFFER_CAPACITY - bufferSize], bufferSize);`.  The
value `write` returns is not assigned to anything; it is kept in the log only. -/
def callWrite (write : Sink) (s : State) : Option State :=
  let start := BUFFER_CAPACITY - s.bufferSize
  if 0 ≤ start ∧ 0 ≤ s.bufferSize ∧ start + s.bufferSize ≤ BUFFER_CAPACITY then
    let data := (s.buffer.drop start.toNat).take s.bufferSize.toNat
    some { s with
      events := s.events ++ [Event.write 1 start data s.bufferSize (write 1 data s.bufferSize)] }
  else none

/-- The states the body goes through, one after each statement, in order. -/
def trajectory (write : Sink) (value : Double) : Option (List State) := do
  let s0 := declare
  let s1 ← storeNewline s0
  let s2 := setIsNegative value s1
  let s3 ← storeSeparator s2
  let s4 ← storeSign s3
  let s5 ← callWrite write s4
  pure [s0, s1, s2, s3, s4, s5]

/-- The state in which the body of `PRINTF` ends. -/
def PRINTF_exec (write : Sink) (value : Double) : Option State :=
  (trajectory write value).bind List.getLast?

/-- What `void PRINTF(double value)` hands back to its caller: nothing. -/
def PRINTF (write : Sink) (value : Double) : Option Unit :=
  (PRINTF_exec write value).map (fun _ => ())

/-! ## Observations on a run -/

/-- The indices stored to, in program order. -/
def storeIndices : List Event → List Int
  | [] => []
  | Event.store i _ :: es => i :: storeIndices es
  | Event.write _ _ _ _ _ :: es => storeIndices es

/-- The `write` calls made, in program order: descriptor, first buffer index,
bytes handed over, length argument. -/
def writeCalls : List Event → List (Int × Int × List (Option Nat) × Int)
  | [] => []
  | Event.store _ _ :: es => writeCalls es
  | Event.write fd start data count _ :: es => (fd, start, data, count) :: writeCalls es

/-- The buffer indices the `write` calls read. -/
def readIndices : List Event → List Int
  | [] => []
  | Event.store _ _ :: es => readIndices es
  | Event.write _ start _ count _ :: es =>
    (List.range count.toNat).map (fun k => start + (k : Int)) ++ readIndices es

/-- All bytes handed to `write` during a call of `PRINTF`, in order. -/
def PRINTF_text (write : Sink) (value : Double) : Option (List (Option Nat)) :=
  (PRINTF_exec write value).map
    (fun s => (writeCalls s.events).flatMap (fun c => c.2.2.1))

/-- The double `5.84` (`0x40175C28F5C28F5C`). -/
def d5_84 : Double := ⟨false, 1025, 2071655828590428⟩

/-- The double `-13315.84846` (`0xC0CA01EC9A5657FB`). -/
def dNeg13315 : Double := ⟨true, 1036, 2816865480366075⟩

/-- Negative zero (`0x8000000000000000`). -/
def dNegZero : Double := ⟨true, 0, 0⟩

/-! ## The integer printers `PRINTI` and `PRINTU`

`main.c` includes `printi.c` and `printu.c` and calls `PRINTI` / `PRINTU`, but the
two files are not among the sources; the definitions below follow sections 3, 4.1,
4.2 and 8 of the specification. -/

/-- Modelled from the spec: one write at the descending cursor of the FormatBuffer
(section 3; `printi.c` and `printu.c` are missing).  The used region grows by one
byte at its front; when all `BUFFER_CAPACITY` cells are in use the write is
refused (the CapacityViolation of section 7). -/
def put (text : List Nat) (byte : Nat) : Option (List Nat) :=
  if (text.length : Int) < BUFFER_CAPACITY then some (byte :: text) else none

/-- Modelled from the spec: the digit-extraction loop of section 4.2 (`printu.c` is
missing): while the remaining value is not zero, write the character of `v mod 10`
at the descending cursor and divide `v` by 10.  `fuel` bounds the number of
rounds. -/
def extractUnsigned : Nat → Nat → List Nat → Option (List Nat)
  | 0, v, text => if v = 0 then some text else none
  | fuel + 1, v, text =>
    if v = 0 then some text
    else (put text (chZero + v % 10)).bind (extractUnsigned fuel (v / 10))

/-- Modelled from the spec: the digit-extraction loop of section 4.1 (`printi.c` is
missing), run on the signed value itself with the truncating `/` and `%` of C, never on
its negation; the digit is the magnitude of the remainder. -/
def extractSigned : Nat → Int → List Nat → Option (List Nat)
  | 0, v, text => if v = 0 then some text else none
  | fuel + 1, v, text =>
    if v = 0 then some text
    else (put text (chZero + (v.tmod 10).natAbs)).bind (extractSigned fuel (v.tdiv 10))

/-- Modelled from the spec: the UnsignedFormatter of section 4.2 (`printu.c` is
missing), giving the text handed to the sink.  The newline is the last byte of the
text ("trailing newline"), stored first at the highest index as in `PRINTF`;
`v == 0` emits the single digit `0`. -/
def PRINTU (v : Nat) : Option (List Nat) :=
  if v = 0 then put [chNewline] chZero
  else extractUnsigned BUFFER_CAPACITY.toNat v [chNewline]

/-- Modelled from the spec: the IntegerFormatter of section 4.1 (`printi.c` is
missing), giving the text handed to the sink: `isNegative = v < 0` is recorded,
the digits are extracted (a single `0` for `v == 0`), and the `'-'` is written
after the last digit so that it comes first in the text. -/
def PRINTI (v : Int) : Option (List Nat) :=
  let isNegative := decide (v < 0)
  let digits := if v = 0 then put [chNewline] chZero
    else extractSigned BUFFER_CAPACITY.toNat v [chNewline]
  digits.bind (fun text => if isNegative then put text chMinus else some text)

/-- Modelled from the spec: the reader of a digit run closed by one newline, used by
`parseUnsigned` and `parseInteger` of section 8 (no parser is in the sources). -/
def parseLoop (acc : Nat) : List Nat → Option Nat
  | [] => none
  | c :: cs =>
    if c = chNewline then (if cs = [] then some acc else none)
    else if chZero ≤ c ∧ c ≤ chZero + 9 then parseLoop (10 * acc + (c - chZero)) cs
    else none

/-- Modelled from the spec: `parseUnsigned` of section 8 (no parser is in the
sources): at least one decimal digit, then one newline. -/
def parseUnsigned (text : List Nat) : Option Nat :=
  match text with
  | [] => none
  | c :: _ => if c = chNewline then none else parseLoop 0 text

/-- Modelled from the spec: `parseInteger` of section 8 (no parser is in the
sources): an optional `'-'`, then what `parseUnsigned` reads. -/
def parseInteger (text : List Nat) : Option Int :=
  match text with
  | [] => none
  | c :: rest =>
    if c = chMinus then (parseUnsigned rest).map (fun (n : Nat) => -(n : Int))
    else (parseUnsigned text).map (fun (n : Nat) => (n : Int))

/-- A sink that transfers everything it is asked to. -/
def fullSink : Sink := fun _ _ count => count

/-- A sink that transfers one byte only. -/
def shortSink : Sink := fun _ _ _ => 1

/-- A sink that fails. -/
def failSink : Sink := fun _ _ _ => -1

end Ember

open Ember

/-! ## Helper lemmas: the run depends on the value through `value < 0` only -/

theorem trajectory_of_neg (w : Sink) (v : Double) (h : v.ltZero = true) :
    trajectory w v = trajectory w dNeg13315 := by
  simp only [trajectory, setIsNegative, h]; rfl

theorem trajectory_of_nonneg (w : Sink) (v : Double) (h : v.ltZero = false) :
    trajectory w v = trajectory w d5_84 := by
  simp only [trajectory, setIsNegative, h]; rfl

/-- The six states of a run on a value below zero, written out. -/
theorem trajectory_neg_eq (w : Sink) :
    trajectory w dNeg13315 = some
      [ ⟨1, List.replicate 64 none, none, []⟩,
        ⟨1, List.replicate 63 none ++ [some 10], none, [Event.store 63 10]⟩,
        ⟨1, List.replicate 63 none ++ [some 10], some 1, [Event.store 63 10]⟩,
        ⟨2, List.replicate 62 none ++ [some 46, some 10], some 1,
          [Event.store 63 10, Event.store 62 46]⟩,
        ⟨3, List.replicate 61 none ++ [some 45, some 46, some 10], some 1,
          [Event.store 63 10, Event.store 62 46, Event.store 61 45]⟩,
        ⟨3, List.replicate 61 none ++ [some 45, some 46, some 10], some 1,
          [Event.store 63 10, Event.store 62 46, Event.store 61 45,
           Event.write 1 61 [some 45, some 46, some 10] 3
             (w 1 [some 45, some 46, some 10] 3)]⟩ ] := rfl

/-- The six states of a run on a value not below zero, written out. -/
theorem trajectory_nonneg_eq (w : Sink) :
    trajectory w d5_84 = some
      [ ⟨1, List.replicate 64 none, none, []⟩,
        ⟨1, List.replicate 63 none ++ [some 10], none, [Event.store 63 10]⟩,
        ⟨1, List.replicate 63 none ++ [some 10], some 0, [Event.store 63 10]⟩,
        ⟨2, List.replicate 62 none ++ [some 46, some 10], some 0,
          [Event.store 63 10, Event.store 62 46]⟩,
        ⟨2, List.replicate 62 none ++ [some 46, some 10], some 0,
          [Event.store 63 10, Event.store 62 46]⟩,
        ⟨2, List.replicate 62 none ++ [some 46, some 10], some 0,
          [Event.store 63 10, Event.store 62 46,
           Event.write 1 62 [some 46, some 10] 2 (w 1 [some 46, some 10] 2)]⟩ ] := rfl

theorem exec_neg_eq (w : Sink) (v : Double) (h : v.ltZero = true) :
    PRINTF_exec w v = some
      ⟨3, List.replicate 61 none ++ [some 45, some 46, some 10], some 1,
        [Event.store 63 10, Event.store 62 46, Event.store 61 45,
         Event.write 1 61 [some 45, some 46, some 10] 3
           (w 1 [some 45, some 46, some 10] 3)]⟩ := by
  rw [PRINTF_exec, trajectory_of_neg w v h, trajectory_neg_eq]; rfl

theorem exec_nonneg_eq (w : Sink) (v : Double) (h : v.ltZero = false) :
    PRINTF_exec w v = some
      ⟨2, List.replicate 62 none ++ [some 46, some 10], some 0,
        [Event.store 63 10, Event.store 62 46,
         Event.write 1 62 [some 46, some 10] 2 (w 1 [some 46, some 10] 2)]⟩ := by
  rw [PRINTF_exec, trajectory_of_nonneg w v h, trajectory_nonneg_eq]; rfl

theorem text_neg_eq (w : Sink) (v : Double) (h : v.ltZero = true) :
    PRINTF_text w v = some [some chMinus, some chDot, some chNewline] := by
  rw [PRINTF_text, exec_neg_eq w v h]; rfl

theorem text_nonneg_eq (w : Sink) (v : Double) (h : v.ltZero = false) :
    PRINTF_text w v = some [some chDot, some chNewline] := by
  rw [PRINTF_text, exec_nonneg_eq w v h]; rfl

/-! ## The float printer `PRINTF` -/

/-- C1 (defect): on the finite double 5.84 the text handed to `write` is exactly
`".\n"`: the `'.'` is followed at once by the newline and by no fractional digit,
although line 25 announces six decimal places. -/
theorem C1_PRINTF_5_84_has_no_fraction_digits :
    d5_84.isFinite = true ∧
    PRINTF_text fullSink d5_84 = some [some chDot, some chNewline] := by
  decide

/-- C2 (defect): on -13315.84846 the text handed to `write` is exactly `"-.\n"`, so
the byte right before the `'.'` is the sign and not a digit of 13315; on 5.84 the
text starts with the `'.'` itself. -/
theorem C2_PRINTF_writes_no_integer_digits :
    PRINTF_text fullSink dNeg13315 = some [some chMinus, some chDot, some chNewline] ∧
    (PRINTF_text fullSink d5_84).map List.head? = some (some (some chDot)) := by
  decide

/-- C3: the text of `PRINTF(value)` holds `'-'` once, as its first byte, when
`value < 0`, and not at all otherwise; the flag is computed from the value in
the state reached when only the newline has been stored. -/
theorem C3_PRINTF_sign_once_iff_negative (w : Sink) (value : Double) :
    ∃ text states s2,
      PRINTF_text w value = some text ∧
      value.ltZero = (value.sign && !value.isNaN && !value.isZero) ∧
      text.count (some chMinus) = (if value.ltZero then 1 else 0) ∧
      (text.head? = some (some chMinus) ↔ value.ltZero = true) ∧
      trajectory w value = some states ∧ states[2]? = some s2 ∧
      s2.isNegative = some (if value.ltZero then 1 else 0) ∧
      s2.events = [Event.store (BUFFER_CAPACITY - 1) chNewline] := by
  rcases Bool.eq_false_or_eq_true value.ltZero with h | h
  · refine ⟨_, _, _, text_neg_eq w value h, rfl, ?_, ?_,
      (trajectory_of_neg w value h).trans (trajectory_neg_eq w), rfl, ?_, rfl⟩
    · rw [h]; decide
    · rw [h]; decide
    · rw [h]; rfl
  · refine ⟨_, _, _, text_nonneg_eq w value h, rfl, ?_, ?_,
      (trajectory_of_nonneg w value h).trans (trajectory_nonneg_eq w), rfl, ?_, rfl⟩
    · rw [h]; decide
    · rw [h]; decide
    · rw [h]; rfl

/-- The comparison `value < 0` on negative zero, 5.84 and -13315.84846. -/
theorem ltZero_examples :
    dNegZero.ltZero = false ∧ d5_84.ltZero = false ∧ dNeg13315.ltZero = true ∧
    PRINTF_text fullSink dNegZero = some [some chDot, some chNewline] := by
  decide

/-- C4 (as stated, refuted): with a sink that transfers 1 byte of the 2 requested,
and with one that fails, `PRINTF(5.84)` hands its caller exactly what it hands
back after a complete transfer. -/
theorem C4_PRINTF_short_write_not_surfaced :
    shortSink 1 [some chDot, some chNewline] 2 ≠ 2 ∧
    failSink 1 [some chDot, some chNewline] 2 < 0 ∧
    (PRINTF_exec shortSink d5_84).map (fun s => s.events.getLast?) =
      some (some (Event.write 1 62 [some chDot, some chNewline] 2 1)) ∧
    PRINTF shortSink d5_84 = PRINTF fullSink d5_84 ∧
    PRINTF failSink d5_84 = PRINTF fullSink d5_84 := by
  decide

/-- C4 (amended): `PRINTF` returns nothing, whatever `write` answers: the call
ends normally with the same (empty) result for every sink, and its run holds
exactly one `write`, so none follows a failed one. -/
theorem C4_PRINTF_ignores_write_result (w : Sink) (value : Double) :
    PRINTF w value = some () ∧
    PRINTF w value = PRINTF fullSink value ∧
    (PRINTF_exec w value).map (fun s => (writeCalls s.events).length) = some 1 := by
  rcases Bool.eq_false_or_eq_true value.ltZero with h | h
  · simp only [PRINTF, exec_neg_eq _ value h]
    exact ⟨rfl, rfl, rfl⟩
  · simp only [PRINTF, exec_nonneg_eq _ value h]
    exact ⟨rfl, rfl, rfl⟩

/-- C5: the bytes `PRINTF(value)` passes to `write` are non-empty, at most
`BUFFER_CAPACITY` = 64 many, and end in the newline. -/
theorem C5_PRINTF_text_bounded_newline_terminated (w : Sink) (value : Double) :
    ∃ text,
      PRINTF_text w value = some text ∧
      text ≠ [] ∧
      (text.length : Int) ≤ BUFFER_CAPACITY ∧
      BUFFER_CAPACITY = 64 ∧
      text.getLast? = some (some chNewline) := by
  rcases Bool.eq_false_or_eq_true value.ltZero with h | h
  · exact ⟨_, text_neg_eq w value h, by decide⟩
  · exact ⟨_, text_nonneg_eq w value h, by decide⟩

/-- C6: a run of `PRINTF(value)` holds exactly one `write`, as its last action: to
descriptor 1, from `&buffer[64 - bufferSize]` up to the end of the buffer, with
length `bufferSize`, which is the number of bytes stored. -/
theorem C6_PRINTF_single_write_of_used_slice (w : Sink) (value : Double) :
    ∃ s,
      PRINTF_exec w value = some s ∧
      writeCalls s.events =
        [(1, BUFFER_CAPACITY - s.bufferSize,
          s.buffer.drop (BUFFER_CAPACITY - s.bufferSize).toNat, s.bufferSize)] ∧
      (s.buffer.length : Int) = BUFFER_CAPACITY ∧
      s.bufferSize = ((storeIndices s.events).length : Int) ∧
      writeCalls s.events.dropLast = [] ∧
      storeIndices s.events.dropLast = storeIndices s.events := by
  rcases Bool.eq_false_or_eq_true value.ltZero with h | h
  · exact ⟨_, exec_neg_eq w value h, rfl, rfl, rfl, rfl, rfl⟩
  · exact ⟨_, exec_nonneg_eq w value h, rfl, rfl, rfl, rfl, rfl⟩

/-- C9: `PRINTF(value)` writes exactly `"-.\n"` when `value < 0` and exactly `".\n"`
otherwise, so values that agree on `value < 0` give the same text. -/
theorem C9_PRINTF_text_is_sign_dot_newline (w : Sink) (value : Double) :
    PRINTF_text w value =
      some (if value.ltZero then [some chMinus, some chDot, some chNewline]
            else [some chDot, some chNewline]) ∧
    ∀ (w2 : Sink) (value2 : Double), value2.ltZero = value.ltZero →
      PRINTF_text w2 value2 = PRINTF_text w value := by
  rcases Bool.eq_false_or_eq_true value.ltZero with h | h
  · refine ⟨by rw [text_neg_eq w value h, h]; rfl, fun w2 v2 h2 => ?_⟩
    rw [text_neg_eq w value h, text_neg_eq w2 v2 (h2.trans h)]
  · refine ⟨by rw [text_nonneg_eq w value h, h]; rfl, fun w2 v2 h2 => ?_⟩
    rw [text_nonneg_eq w value h, text_nonneg_eq w2 v2 (h2.trans h)]

/-- C9, instance: 5.84 and negative zero, through different sinks, both give `".\n"`. -/
theorem C9_PRINTF_text_witness :
    PRINTF_text fullSink d5_84 = some [some chDot, some chNewline] ∧
    PRINTF_text shortSink dNegZero = PRINTF_text fullSink d5_84 :=
  ⟨(C9_PRINTF_text_is_sign_dot_newline fullSink d5_84).1,
   (C9_PRINTF_text_is_sign_dot_newline fullSink d5_84).2 shortSink dNegZero (by decide)⟩

/-- C10 (as stated, refuted): right after `int bufferSize = 1;` the counter is 1
while no byte has been stored yet. -/
theorem C10_bufferSize_ahead_of_stores_at_declaration :
    (trajectory fullSink d5_84).map
        (fun states => states.head?.map
          (fun s => (s.bufferSize, (storeIndices s.events).length))) =
      some (some (1, 0)) := by
  decide

/-- C10 (amended): in a run of `PRINTF(value)` the k-th store goes to index
`63 - k` (at most three stores), every index stored to or read lies in `[0, 64)`,
`bufferSize` stays in `[1, 64]` and, in every state from the store of the newline
on, equals the number of bytes stored so far; the slice read by `write` is
`[64 - bufferSize, 64)` and each of its cells was stored by this call. -/
theorem C10_PRINTF_buffer_discipline (w : Sink) (value : Double) :
    ∃ states final,
      trajectory w value = some states ∧ states.getLast? = some final ∧
      storeIndices final.events =
        (List.range (storeIndices final.events).length).map
          (fun k => BUFFER_CAPACITY - 1 - (k : Int)) ∧
      (storeIndices final.events).length ≤ 3 ∧
      (∀ s ∈ states, ∀ i ∈ storeIndices s.events ++ readIndices s.events,
        0 ≤ i ∧ i < BUFFER_CAPACITY) ∧
      (∀ s ∈ states, 1 ≤ s.bufferSize ∧ s.bufferSize ≤ BUFFER_CAPACITY) ∧
      (∀ s ∈ states.tail, s.bufferSize = ((storeIndices s.events).length : Int)) ∧
      readIndices final.events =
        (List.range final.bufferSize.toNat).map
          (fun k => BUFFER_CAPACITY - final.bufferSize + (k : Int)) ∧
      (∀ i ∈ readIndices final.events, i ∈ storeIndices final.events) ∧
      (∀ c ∈ writeCalls final.events, ∀ b ∈ c.2.2.1, b.isSome = true) := by
  rcases Bool.eq_false_or_eq_true value.ltZero with h | h
  · refine ⟨_, _, (trajectory_of_neg w value h).trans (trajectory_neg_eq w), rfl,
      rfl, by simp [storeIndices], ?_, ?_, ?_, rfl, ?_, ?_⟩
    · simp [storeIndices, readIndices, BUFFER_CAPACITY, List.range, List.range.loop]
      omega
    · simp [BUFFER_CAPACITY]
    · simp [storeIndices]
    · simp [storeIndices, readIndices, List.range, List.range.loop]
    · simp [writeCalls]
  · refine ⟨_, _, (trajectory_of_nonneg w value h).trans (trajectory_nonneg_eq w), rfl,
      rfl, by simp [storeIndices], ?_, ?_, ?_, rfl, ?_, ?_⟩
    · simp [storeIndices, readIndices, BUFFER_CAPACITY, List.range, List.range.loop]
      omega
    · simp [BUFFER_CAPACITY]
    · simp [storeIndices]
    · simp [storeIndices, readIndices, List.range, List.range.loop]
    · simp [writeCalls]

/-- C10, instance: the run on -13315.84846 stores to 63, 62, 61 and `write` reads
61, 62, 63. -/
theorem C10_PRINTF_buffer_discipline_witness :
    ∃ states final,
      trajectory fullSink dNeg13315 = some states ∧ states.getLast? = some final ∧
      storeIndices final.events = [63, 62, 61] ∧
      readIndices final.events = [61, 62, 63] ∧
      final.bufferSize = 3 := by
  obtain ⟨states, final, h1, h2, -⟩ := C10_PRINTF_buffer_discipline fullSink dNeg13315
  refine ⟨states, final, h1, h2, ?_⟩
  rw [trajectory_neg_eq] at h1
  cases h1
  cases h2
  decide

/-! ## The integer printers -/

theorem parseLoop_digit (acc d : Nat) (cs : List Nat) (h : d < 10) :
    parseLoop acc ((chZero + d) :: cs) = parseLoop (10 * acc + d) cs := by
  have h1 : chZero + d ≠ chNewline := by simp only [chZero, chNewline]; omega
  have h2 : chZero ≤ chZero + d ∧ chZero + d ≤ chZero + 9 := by omega
  rw [parseLoop, if_neg h1, if_pos h2, Nat.add_sub_cancel_left]

/-- The digit loop on `v < 10 ^ k`, with `k` rounds of fuel and `k` free cells left:
it puts a run `ds` of at most `k` digit characters in front of the text, empty for
zero and starting with a non-zero digit otherwise, which reads back as `v`. -/
theorem extractUnsigned_spec (fuel : Nat) :
    ∀ (k v : Nat) (text : List Nat), v < 10 ^ k → k ≤ fuel → text.length + k ≤ 64 →
    ∃ ds m, extractUnsigned fuel v text = some (ds ++ text) ∧ ds.length ≤ k ∧
      (∀ d ∈ ds, chZero ≤ d ∧ d ≤ chZero + 9) ∧
      (v = 0 → ds = []) ∧
      (0 < v → ∃ d rest, ds = d :: rest ∧ d ≠ chZero) ∧
      (∀ acc rest, parseLoop acc (ds ++ rest) = parseLoop (acc * m + v) rest) := by
  induction fuel with
  | zero =>
    intro k v text hv hk _
    have hk0 : k = 0 := by omega
    subst hk0
    have hv0 : v = 0 := by simpa using hv
    subst hv0
    exact ⟨[], 1, by simp [extractUnsigned], by simp, by simp, fun _ => rfl,
      fun h => absurd h (by decide), by simp⟩
  | succ fuel ih =>
    intro k v text hv hk hlen
    by_cases hv0 : v = 0
    · subst hv0
      exact ⟨[], 1, by simp [extractUnsigned], by simp, by simp, fun _ => rfl,
        fun h => absurd h (by decide), by simp⟩
    · have hkpos : 0 < k := by
        rcases Nat.eq_zero_or_pos k with h | h
        · subst h
          simp only [pow_zero, Nat.lt_one_iff] at hv
          exact absurd hv hv0
        · exact h
      obtain ⟨j, rfl⟩ : ∃ j, k = j + 1 := ⟨k - 1, by omega⟩
      have hdiv : v / 10 < 10 ^ j := by
        rw [Nat.div_lt_iff_lt_mul (by decide)]
        rw [pow_succ] at hv
        exact hv
      have hmod : v % 10 < 10 := Nat.mod_lt v (by decide)
      have hput : put text (chZero + v % 10) = some ((chZero + v % 10) :: text) := by
        have : (text.length : Int) < BUFFER_CAPACITY := by
          simp only [BUFFER_CAPACITY]; omega
        simp only [put, if_pos this]
      obtain ⟨ds, m, hrun, hl, hdig, hz, hnz, hparse⟩ :=
        ih j (v / 10) ((chZero + v % 10) :: text) hdiv (by omega)
          (by simp only [List.length_cons]; omega)
      refine ⟨ds ++ [chZero + v % 10], m * 10, ?_, ?_, ?_, ?_, ?_, ?_⟩
      · rw [extractUnsigned, if_neg hv0, hput, Option.some_bind, hrun]
        simp
      · simp only [List.length_append, List.length_singleton]; omega
      · intro d hd
        rcases List.mem_append.1 hd with h | h
        · exact hdig d h
        · rw [List.mem_singleton] at h
          subst h
          omega
      · intro h
        exact absurd h hv0
      · intro _
        by_cases hq : v / 10 = 0
        · have hnil := hz hq
          subst hnil
          refine ⟨chZero + v % 10, [], rfl, ?_⟩
          have : v % 10 ≠ 0 := by omega
          omega
        · obtain ⟨d, rest, rfl, hd⟩ := hnz (Nat.pos_of_ne_zero hq)
          exact ⟨d, rest ++ [chZero + v % 10], rfl, hd⟩
      · intro acc rest
        rw [List.append_assoc, List.singleton_append, hparse, parseLoop_digit _ _ _ hmod]
        congr 1
        have e : acc * (m * 10) = 10 * (acc * m) := by ring
        have := Nat.div_add_mod v 10
        omega

theorem natAbs_tmod_ten (v : Int) : (v.tmod 10).natAbs = v.natAbs % 10 := by
  cases v with
  | ofNat n => rfl
  | negSucc n =>
    show (-Int.ofNat (Nat.succ n % 10)).natAbs = _
    rw [Int.natAbs_neg]
    rfl

theorem natAbs_tdiv_ten (v : Int) : (v.tdiv 10).natAbs = v.natAbs / 10 := by
  rw [Int.natAbs_tdiv]
  rfl

/-- The signed loop does on `v` what the unsigned loop does on `|v|`. -/
theorem extractSigned_eq (fuel : Nat) :
    ∀ (v : Int) (text : List Nat),
      extractSigned fuel v text = extractUnsigned fuel v.natAbs text := by
  induction fuel with
  | zero =>
    intro v text
    simp only [extractSigned, extractUnsigned, Int.natAbs_eq_zero]
  | succ fuel ih =>
    intro v text
    simp only [extractSigned, extractUnsigned, Int.natAbs_eq_zero, natAbs_tmod_ten]
    by_cases hv : v = 0
    · simp only [hv, if_true]
    · simp only [hv, if_false]
      cases put text (chZero + v.natAbs % 10) with
      | none => rfl
      | some t => simp only [Option.some_bind, ih, natAbs_tdiv_ten]

/-- The digits written for `n < 10 ^ 20` in front of the newline: a non-empty run of
at most 20 digit characters, `0` alone for zero and no leading `0` otherwise, which
`parseUnsigned` reads back as `n`. -/
theorem digits_spec (n : Nat) (hn : n < 10 ^ 20) :
    ∃ ds, (if n = 0 then put [chNewline] chZero
            else extractUnsigned BUFFER_CAPACITY.toNat n [chNewline]) =
        some (ds ++ [chNewline]) ∧
      ds ≠ [] ∧ ds.length ≤ 20 ∧
      (∀ d ∈ ds, chZero ≤ d ∧ d ≤ chZero + 9) ∧
      (ds.head? = some chZero ↔ n = 0) ∧
      (n = 0 → ds = [chZero]) ∧
      parseUnsigned (ds ++ [chNewline]) = some n := by
  by_cases h0 : n = 0
  · subst h0
    exact ⟨[chZero], by decide, by decide, by decide, by decide, by decide, fun _ => rfl,
      by decide⟩
  · obtain ⟨ds, m, hrun, hl, hdig, _, hnz, hparse⟩ :=
      extractUnsigned_spec BUFFER_CAPACITY.toNat 20 n [chNewline] hn (by decide) (by decide)
    obtain ⟨d, rest, rfl, hd⟩ := hnz (Nat.pos_of_ne_zero h0)
    have hd2 := hdig d (List.mem_cons_self _ _)
    refine ⟨d :: rest, by rw [if_neg h0, hrun], by simp, hl, hdig, ?_, fun h => absurd h h0, ?_⟩
    · simp only [List.head?_cons, Option.some.injEq]
      exact ⟨fun h => absurd h hd, fun h => absurd h h0⟩
    · have hnl : d ≠ chNewline := by
        have := hd2.1
        simp only [chZero, chNewline] at *
        omega
      have := hparse 0 [chNewline]
      simp only [List.cons_append] at this
      simp only [parseUnsigned, List.cons_append, if_neg hnl, this, Nat.zero_mul, Nat.zero_add]
      simp [parseLoop]

/-- C8: for every unsigned 64-bit `v`, the text of `PRINTU(v)` is a non-empty run of
decimal digits without a leading zero (the single `0` for zero) followed by one
newline, and `parseUnsigned` reads it back as `v`; `PRINTU(0)` gives `"0\n"` and
`PRINTU(18446744073709551615)` gives `"18446744073709551615\n"`. -/
theorem C8_PRINTU_roundtrip (v : Nat) (hv : v < 2 ^ 64) :
    (∃ digits, PRINTU v = some (digits ++ [chNewline]) ∧
      digits ≠ [] ∧
      (∀ d ∈ digits, chZero ≤ d ∧ d ≤ chZero + 9) ∧
      (digits.head? = some chZero ↔ v = 0) ∧
      (v = 0 → digits = [chZero])) ∧
    (PRINTU v).bind parseUnsigned = some v ∧
    PRINTU 0 = some ("0\n".toList.map Char.toNat) ∧
    PRINTU 18446744073709551615 = some ("18446744073709551615\n".toList.map Char.toNat) := by
  obtain ⟨ds, hrun, hne, _, hdig, hhead, hzero, hparse⟩ :=
    digits_spec v (lt_trans hv (by norm_num))
  have htext : PRINTU v = some (ds ++ [chNewline]) := hrun
  refine ⟨⟨ds, htext, hne, hdig, hhead, hzero⟩, ?_, by decide, by decide⟩
  rw [htext, Option.some_bind, hparse]

/-- C8, instance: 65535 is printed and read back. -/
theorem C8_PRINTU_roundtrip_witness :
    65535 < 2 ^ 64 ∧ (PRINTU 65535).bind parseUnsigned = some 65535 :=
  ⟨by norm_num, (C8_PRINTU_roundtrip 65535 (by norm_num)).2.1⟩

/-- C7: for every signed 64-bit `v`, the text of `PRINTI(v)` is a `'-'` exactly when
`v < 0`, then the decimal digits of `|v|` without a leading zero (the single `0` for
zero), then one newline, and `parseInteger` reads it back as `v`; `PRINTI(0)` gives
`"0\n"`, the least value gives `"-9223372036854775808\n"` and the greatest gives
`"9223372036854775807\n"`. -/
theorem C7_PRINTI_roundtrip (v : Int)
    (hlo : -9223372036854775808 ≤ v) (hhi : v ≤ 9223372036854775807) :
    (∃ digits,
      PRINTI v = some ((if v < 0 then [chMinus] else []) ++ digits ++ [chNewline]) ∧
      digits ≠ [] ∧
      (∀ d ∈ digits, chZero ≤ d ∧ d ≤ chZero + 9) ∧
      (digits.head? = some chZero ↔ v = 0) ∧
      (v = 0 → digits = [chZero]) ∧
      parseUnsigned (digits ++ [chNewline]) = some v.natAbs) ∧
    (PRINTI v).bind parseInteger = some v ∧
    PRINTI 0 = some ("0\n".toList.map Char.toNat) ∧
    PRINTI (-9223372036854775808) = some ("-9223372036854775808\n".toList.map Char.toNat) ∧
    PRINTI 9223372036854775807 = some ("9223372036854775807\n".toList.map Char.toNat) := by
  have habs : v.natAbs < 10 ^ 20 := by omega
  obtain ⟨ds, hrun, hne, hlen, hdig, hhead, hzero, hparse⟩ := digits_spec v.natAbs habs
  have hdigits : (if v = 0 then put [chNewline] chZero
      else extractSigned BUFFER_CAPACITY.toNat v [chNewline]) = some (ds ++ [chNewline]) := by
    rw [extractSigned_eq, ← hrun]
    simp only [Int.natAbs_eq_zero]
  have htext : PRINTI v = some ((if v < 0 then [chMinus] else []) ++ ds ++ [chNewline]) := by
    simp only [PRINTI, hdigits, Option.some_bind]
    by_cases hneg : v < 0
    · have hcap : (((ds ++ [chNewline]).length : Nat) : Int) < BUFFER_CAPACITY := by
        simp only [BUFFER_CAPACITY, List.length_append, List.length_singleton]
        omega
      simp only [hneg, decide_True, if_true, put, if_pos hcap]
      simp
    · simp only [hneg, decide_False, if_false]
      simp
  refine ⟨⟨ds, htext, hne, hdig, ?_, ?_, hparse⟩, ?_, by decide, by decide, by decide⟩
  · rw [hhead, Int.natAbs_eq_zero]
  · intro h
    exact hzero (by rw [h]; rfl)
  · rw [htext, Option.some_bind]
    by_cases hneg : v < 0
    · have hp : parseInteger (chMinus :: (ds ++ [chNewline])) =
          (parseUnsigned (ds ++ [chNewline])).map (fun (n : Nat) => -(n : Int)) := by
        simp only [parseInteger, if_true]
      simp only [hneg, if_true, List.singleton_append, List.cons_append, List.nil_append]
      rw [hp, hparse]
      show some (-(v.natAbs : Int)) = some v
      congr 1
      omega
    · obtain ⟨d, rest, rfl⟩ : ∃ d rest, ds = d :: rest := by
        cases ds with
        | nil => exact absurd rfl hne
        | cons d rest => exact ⟨d, rest, rfl⟩
      have hd := (hdig d (List.mem_cons_self _ _)).1
      have hnm : d ≠ chMinus := by
        simp only [chZero, chMinus] at *
        omega
      have hp : parseInteger (d :: (rest ++ [chNewline])) =
          (parseUnsigned (d :: (rest ++ [chNewline]))).map (fun (n : Nat) => (n : Int)) := by
        simp only [parseInteger, if_neg hnm]
      simp only [hneg, if_false, List.nil_append, List.cons_append]
      rw [hp, ← List.cons_append, hparse]
      show some ((v.natAbs : Nat) : Int) = some v
      congr 1
      omega

/-- C7, instance: -32768 is printed and read back. -/
theorem C7_PRINTI_roundtrip_witness :
    (-9223372036854775808 : Int) ≤ -32768 ∧ (-32768 : Int) ≤ 9223372036854775807 ∧
    (PRINTI (-32768)).bind parseInteger = some (-32768) :=
  ⟨by decide, by decide, (C7_PRINTI_roundtrip (-32768) (by decide) (by decide)).2.1⟩
